import Mathlib

/-
Verification development for the CipherLink secure messaging repository.

The definitions below are a shallow embedding of the C sources:
  src/src/encryption.c   (encrypt_data, decrypt_data)
  src/src/session.c      (authenticate_user, generate_dh_keypair,
                          derive_shared_secret, initialize_session,
                          terminate_session)
  src/client.c and src/server.c (receiver_thread_func frame handling)

Byte buffers are modelled as List Nat (each entry one byte value).
Machine-level OpenSSL primitives (the AES-256-GCM cipher, SHA-256 and the
Diffie-Hellman group operations) are external library code, not part of the
repository; they are modelled from the specification, and each such
definition carries a doc comment saying so.  Fallible C functions returning
SecureCommError plus out-parameters are modelled as functions returning the
error code together with an Option holding the out-parameter values (none
meaning the out-parameters were left unchanged).  Nondeterministic
environment outcomes (malloc failure, RAND_bytes output, EVP allocation
failure) are passed in explicitly as environment records of Bool flags.
-/

/-- Error enum from src/include/secure_comm.h lines 26-44. -/
inductive SecureCommError where
  | SECURE_COMM_SUCCESS
  | SECURE_COMM_ERR_INIT
  | SECURE_COMM_ERR_SOCKET
  | SECURE_COMM_ERR_ADDRESS
  | SECURE_COMM_ERR_CONNECT
  | SECURE_COMM_ERR_SSL_CTX
  | SECURE_COMM_ERR_SSL
  | SECURE_COMM_ERR_SEND
  | SECURE_COMM_ERR_RECV
  | SECURE_COMM_ERR_MEMORY
  | SECURE_COMM_ERR_ENCRYPT
  | SECURE_COMM_ERR_DECRYPT
  | SECURE_COMM_ERR_COMPRESS
  | SECURE_COMM_ERR_DECOMPRESS
  | SECURE_COMM_ERR_SESSION
  | SECURE_COMM_ERR_CONFIG
  | SECURE_COMM_ERR_LOG
deriving DecidableEq, Repr

open SecureCommError

/-- Numeric value of each enum constant exactly as assigned in
secure_comm.h (0 down to -16). -/
def errCode : SecureCommError → Int
  | SECURE_COMM_SUCCESS => 0
  | SECURE_COMM_ERR_INIT => -1
  | SECURE_COMM_ERR_SOCKET => -2
  | SECURE_COMM_ERR_ADDRESS => -3
  | SECURE_COMM_ERR_CONNECT => -4
  | SECURE_COMM_ERR_SSL_CTX => -5
  | SECURE_COMM_ERR_SSL => -6
  | SECURE_COMM_ERR_SEND => -7
  | SECURE_COMM_ERR_RECV => -8
  | SECURE_COMM_ERR_MEMORY => -9
  | SECURE_COMM_ERR_ENCRYPT => -10
  | SECURE_COMM_ERR_DECRYPT => -11
  | SECURE_COMM_ERR_COMPRESS => -12
  | SECURE_COMM_ERR_DECOMPRESS => -13
  | SECURE_COMM_ERR_SESSION => -14
  | SECURE_COMM_ERR_CONFIG => -15
  | SECURE_COMM_ERR_LOG => -16

/-- Little-endian interpretation of a byte list as a natural number
(each entry reduced mod 256).  Helper used by the cipher model. -/
def bytesToNat : List Nat → Nat
  | [] => 0
  | b :: r => b % 256 + 256 * bytesToNat r

/-- Little-endian serialization of a natural number into a fixed number of
bytes.  Helper used by the cipher model. -/
def natToBytes : Nat → Nat → List Nat
  | 0, _ => []
  | n + 1, v => v % 256 :: natToBytes n (v / 256)

/-- Modelled from the spec: byte i of the AES-256-GCM CTR keystream for a
given key and nonce (the EVP_aes_256_gcm EncryptUpdate / DecryptUpdate
stream, which is external OpenSSL code).  What matters for the claims is
that it is a deterministic function of key, nonce and position producing a
byte, which this concrete mixing function is. -/
def keystreamByte (key iv : List Nat) (i : Nat) : Nat :=
  (bytesToNat key + 3 * bytesToNat iv + 5 * i + 11) % 256

/-- Modelled from the spec: the first n AES-256-GCM keystream bytes. -/
def keystream (key iv : List Nat) (n : Nat) : List Nat :=
  (List.range n).map (keystreamByte key iv)

/-- Pointwise XOR of two byte lists (truncating to the shorter one). -/
def zipXor (a b : List Nat) : List Nat :=
  List.zipWith (fun x y => x ^^^ y) a b

/-- Modelled from the spec: the GCM counter-mode transform, XORing data
with the keystream.  The same transform performs encryption and
decryption. -/
def gcmCtr (key iv data : List Nat) : List Nat :=
  zipXor data (keystream key iv data.length)

instance : NeZero (257 : Nat) := ⟨by norm_num⟩

instance : Fact (Nat.Prime 257) := ⟨by norm_num⟩

/-- Modelled from the spec: the GHASH-style polynomial accumulator of the
GCM tag over the field ZMod 257, evaluated at the hash key H.  Like real
GHASH over its 128-bit field, it is a polynomial in H whose coefficients
are the ciphertext bytes, so any change of a single byte changes the
value. -/
def polyA (H : ZMod 257) : List Nat → ZMod 257
  | [] => 0
  | c :: r => (c : ZMod 257) * H ^ r.length + polyA H r

/-- Modelled from the spec: the GCM hash subkey derived from key and nonce.
It lies in the interval 1..256, hence is nonzero in ZMod 257, matching the
generic (nonzero hash subkey) GHASH situation. -/
def hNat (key iv : List Nat) : Nat :=
  (bytesToNat key + 7 * bytesToNat iv) % 256 + 1

/-- Modelled from the spec: the GCM authentication tag value over
ciphertext, key and nonce, as an element of ZMod 257: the polynomial hash
of the ciphertext at the hash subkey, masked with a key/nonce/length
dependent offset (the encrypted initial counter block of real GCM). -/
def tagVal (key iv ct : List Nat) : ZMod 257 :=
  polyA ((hNat key iv : Nat) : ZMod 257) ct
    + ((bytesToNat key + 13 * bytesToNat iv + ct.length : Nat) : ZMod 257)

/-- Modelled from the spec: the 16-byte GCM authentication tag written by
EVP_CIPHER_CTX_ctrl with EVP_CTRL_GCM_GET_TAG. -/
def gcmTag (key iv ct : List Nat) : List Nat :=
  natToBytes 16 (tagVal key iv ct).val

/-- Environment of encrypt_data: which of the fallible external calls
succeed, and the random IV produced by RAND_bytes. -/
structure EncEnv where
  args_ok : Bool
  ctx_new_ok : Bool
  rand_ok : Bool
  init_ok : Bool
  update_ok : Bool
  final_ok : Bool
  get_tag_ok : Bool
  rand_iv : List Nat
deriving DecidableEq, Repr

/-- Model of encrypt_data (src/src/encryption.c lines 27-95).  Mirrors the
control flow of the C function: argument check, EVP_CIPHER_CTX_new,
RAND_bytes drawing the 12-byte IV, EVP_EncryptInit_ex, EVP_EncryptUpdate,
EVP_EncryptFinal_ex, then EVP_CTRL_GCM_GET_TAG.  Every failure exit
returns SECURE_COMM_ERR_ENCRYPT with the out-parameters unset (none).  On
success the out-parameters are the IV, the ciphertext and the 16-byte
tag. -/
def encrypt_data (e : EncEnv) (plaintext key : List Nat) :
    SecureCommError × Option (List Nat × List Nat × List Nat) :=
  if e.args_ok = false then (SECURE_COMM_ERR_ENCRYPT, none)
  else if e.ctx_new_ok = false then (SECURE_COMM_ERR_ENCRYPT, none)
  else if e.rand_ok = false then (SECURE_COMM_ERR_ENCRYPT, none)
  else if e.init_ok = false then (SECURE_COMM_ERR_ENCRYPT, none)
  else if e.update_ok = false then (SECURE_COMM_ERR_ENCRYPT, none)
  else if e.final_ok = false then (SECURE_COMM_ERR_ENCRYPT, none)
  else if e.get_tag_ok = false then (SECURE_COMM_ERR_ENCRYPT, none)
  else (SECURE_COMM_SUCCESS,
    some (e.rand_iv, gcmCtr key e.rand_iv plaintext,
      gcmTag key e.rand_iv (gcmCtr key e.rand_iv plaintext)))

/-- Environment of decrypt_data: which of the fallible external calls
succeed (argument check, EVP_CIPHER_CTX_new, EVP_DecryptInit_ex,
EVP_DecryptUpdate, EVP_CTRL_GCM_SET_TAG). -/
structure DecEnv where
  args_ok : Bool
  ctx_new_ok : Bool
  init_ok : Bool
  update_ok : Bool
  set_tag_ok : Bool
deriving DecidableEq, Repr

/-- Model of decrypt_data (src/src/encryption.c lines 112-173).  Mirrors
the control flow of the C function: argument check, EVP_CIPHER_CTX_new,
EVP_DecryptInit_ex, EVP_DecryptUpdate (which computes the candidate
plaintext), EVP_CTRL_GCM_SET_TAG, and EVP_DecryptFinal_ex which verifies
the recomputed tag against the supplied one.  Every failure exit,
including tag mismatch, returns SECURE_COMM_ERR_DECRYPT with the
out-parameters unset (none): the caller observes no plaintext.  Only when
the tag verifies is (SECURE_COMM_SUCCESS, some plaintext) returned. -/
def decrypt_data (e : DecEnv) (ciphertext key iv tag : List Nat) :
    SecureCommError × Option (List Nat) :=
  if e.args_ok = false then (SECURE_COMM_ERR_DECRYPT, none)
  else if e.ctx_new_ok = false then (SECURE_COMM_ERR_DECRYPT, none)
  else if e.init_ok = false then (SECURE_COMM_ERR_DECRYPT, none)
  else if e.update_ok = false then (SECURE_COMM_ERR_DECRYPT, none)
  else if e.set_tag_ok = false then (SECURE_COMM_ERR_DECRYPT, none)
  else if gcmTag key iv ciphertext = tag then
    (SECURE_COMM_SUCCESS, some (gcmCtr key iv ciphertext))
  else (SECURE_COMM_ERR_DECRYPT, none)

/-- The all-successful encryption environment with a given RAND_bytes
IV. -/
def encOkEnv (iv : List Nat) : EncEnv :=
  ⟨true, true, true, true, true, true, true, iv⟩

/-- The all-successful decryption environment. -/
def decOkEnv : DecEnv :=
  ⟨true, true, true, true, true⟩

/-- One event observed by the receiver loop on its socket: a complete
frame delivered by recv, recv returning 0 (peer closed), or recv
returning a negative value (receive error). -/
inductive RecvEvent where
  | frame (bytes : List Nat)
  | recvClosed
  | recvError
deriving DecidableEq, Repr

/-- One observable action of the receiver loop: the error log lines for a
too-short frame or a failed decryption, the delivery (console print) of a
decrypted message, or the log lines emitted on leaving the loop. -/
inductive RecvAction where
  | logShort
  | logDecryptFail
  | deliver (msg : List Nat)
  | logClosed
  | logRecvError
deriving DecidableEq, Repr

/-- Frame handling of one received buffer, parametric in the decryption
function so that independence from it can express that the cipher is not
invoked.  Mirrors the body of receiver_thread_func in src/client.c lines
222-247 and src/server.c lines 285-311: if the buffer holds fewer than
IV_SIZE + TAG_SIZE = 12 + 16 bytes, log the too-short error and discard;
otherwise split off the 12-byte IV, the 16-byte tag and the remaining
ciphertext and call the decryption function; a non-success return is
logged and the frame discarded, a success delivers the plaintext. -/
def receiver_process_frameWith
    (dec : List Nat → List Nat → List Nat → List Nat →
      SecureCommError × Option (List Nat))
    (key buffer : List Nat) : RecvAction :=
  if buffer.length < 12 + 16 then RecvAction.logShort
  else
    let r := dec (buffer.drop (12 + 16)) key (buffer.take 12)
      ((buffer.drop 12).take 16)
    if r.1 = SECURE_COMM_SUCCESS then RecvAction.deliver (r.2.getD [])
    else RecvAction.logDecryptFail

/-- Frame handling of one received buffer with the actual decrypt_data of
src/src/encryption.c plugged in. -/
def receiver_process_frame (e : DecEnv) (key buffer : List Nat) : RecvAction :=
  receiver_process_frameWith (fun ct k iv tg => decrypt_data e ct k iv tg)
    key buffer

/-- The receiver loop of receiver_thread_func (src/client.c lines 204-264,
src/server.c lines 265-329) over a sequence of socket events: a zero or
negative recv result logs and breaks out of the loop (ending the
connection), while a received frame is processed by the per-frame handler
and the loop continues with the next event on the same connection. -/
def receiver_loop (e : DecEnv) (key : List Nat) :
    List RecvEvent → List RecvAction
  | [] => []
  | RecvEvent.recvClosed :: _ => [RecvAction.logClosed]
  | RecvEvent.recvError :: _ => [RecvAction.logRecvError]
  | RecvEvent.frame b :: rest =>
      receiver_process_frame e key b :: receiver_loop e key rest

/-- The messages actually delivered (printed) among a list of receiver
actions. -/
def deliveredMsgs (acts : List RecvAction) : List (List Nat) :=
  acts.filterMap fun a =>
    match a with
    | RecvAction.deliver m => some m
    | _ => none

/-- A Diffie-Hellman key pair handle (EVP_PKEY holding the private and the
public value).  Modelled from the spec: the group elements are naturals;
only determinism of the derive operation matters for the claims. -/
structure DHKeyPair where
  priv : Nat
  pub : Nat
deriving DecidableEq, Repr

/-- The UserSession structure from src/include/secure_comm.h lines 50-56.
Pointer fields that may be NULL are Options. -/
structure UserSession where
  username : Option String
  session_key : Option (List Nat)
  session_key_len : Nat
  dh_keypair : Option DHKeyPair
  peer_dh_public : Option DHKeyPair
deriving DecidableEq, Repr

/-- Model of authenticate_user (src/src/session.c lines 28-40): compares
the username with the hardcoded string user and the password with the
hardcoded string pass; both must match for success, anything else is
SECURE_COMM_ERR_SESSION. -/
def authenticate_user (username password : String) : SecureCommError :=
  if username = ("user") ∧ password = ("pass") then SECURE_COMM_SUCCESS
  else SECURE_COMM_ERR_SESSION

/-- Environment of generate_dh_keypair: whether the EVP parameter and key
generation calls succeed, and the randomly generated pair itself. -/
structure KeygenEnv where
  keygen_ok : Bool
  pair : DHKeyPair
deriving DecidableEq, Repr

/-- Model of generate_dh_keypair (src/src/session.c lines 51-122): on
success the out-parameter receives the freshly generated 2048-bit MODP
group 14 key pair (the randomness and the EVP calls are summarised by the
environment), any EVP failure returns SECURE_COMM_ERR_SESSION with the
out-parameter unset. -/
def generate_dh_keypair (e : KeygenEnv) :
    SecureCommError × Option DHKeyPair :=
  if e.keygen_ok then (SECURE_COMM_SUCCESS, some e.pair)
  else (SECURE_COMM_ERR_SESSION, none)

/-- Modelled from the spec: stand-in modulus for the 2048-bit MODP group
14 prime of RFC 3526 used by generate_dh_keypair. -/
def dhP : Nat := 2 ^ 127 - 1

/-- Byte size of the raw Diffie-Hellman shared secret reported by
EVP_PKEY_derive: the byte length of the 2048-bit group modulus. -/
def dhSecretLen : Nat := 256

/-- Modelled from the spec: the raw finite-field Diffie-Hellman shared
secret computed by EVP_PKEY_derive from the local private value and the
peer public value. -/
def dhSharedSecret (priv peerPub : Nat) : Nat :=
  peerPub ^ priv % dhP

/-- The raw shared-secret byte buffer EVP_PKEY_derive writes for a local
key pair whose own public value stands in for the peer (the self-agreement
performed by derive_shared_secret). -/
def rawSecretBytes (kp : DHKeyPair) : List Nat :=
  natToBytes dhSecretLen (dhSharedSecret kp.priv kp.pub)

/-- Modelled from the spec: the fixed-output one-way hash (SHA-256 in the
code, external OpenSSL) applied to the raw shared secret; always produces
exactly 32 bytes. -/
def sha256model (data : List Nat) : List Nat :=
  natToBytes 32
    (data.foldl (fun acc b => (acc * 131 + b % 256 + 1) % 2 ^ 256) 7)

/-- Environment of derive_shared_secret: which of the fallible external
calls succeed (EVP_PKEY_dup, EVP_PKEY_CTX_new, EVP_PKEY_derive_init,
EVP_PKEY_derive_set_peer, the size-query EVP_PKEY_derive, malloc of the
secret buffer, the deriving EVP_PKEY_derive, malloc of the session
key). -/
structure DeriveEnv where
  dup_ok : Bool
  ctx_ok : Bool
  init_ok : Bool
  setpeer_ok : Bool
  sizeq_ok : Bool
  malloc_secret_ok : Bool
  derive_ok : Bool
  malloc_key_ok : Bool
deriving DecidableEq, Repr

/-- Result of derive_shared_secret: the returned error code, the session
as left by the call, and whether the raw shared-secret buffer was freed
(the free of secret in src/src/session.c lines 188 and 199) on the paths
where it had been allocated. -/
structure DeriveResult where
  ret : SecureCommError
  session : UserSession
  rawSecretFreed : Bool
deriving DecidableEq, Repr

/-- Overwriting of the peer public key field by EVP_PKEY_dup of the local
key pair, as done by derive_shared_secret at src/src/session.c line
144. -/
def withPeer (s : UserSession) (kp : DHKeyPair) : UserSession :=
  { s with peer_dh_public := some kp }

/-- Model of derive_shared_secret (src/src/session.c lines 133-211).
Mirrors the control flow of the C function: a session without a DH key
pair is rejected; the peer public key field is overwritten with
EVP_PKEY_dup of the local key pair (the demonstration self-agreement the
source marks with a TODO); each fallible EVP step can fail with
SECURE_COMM_ERR_SESSION (mallocs with SECURE_COMM_ERR_MEMORY); on the
success path the raw shared secret is derived, hashed with SHA256, freed,
and the 32-byte hash is stored as the session key with session_key_len =
SHA256_DIGEST_LENGTH = 32. -/
def derive_shared_secret (de : DeriveEnv) (s : UserSession) : DeriveResult :=
  match s.dh_keypair with
  | none => ⟨SECURE_COMM_ERR_SESSION, s, false⟩
  | some kp =>
    if de.dup_ok = false then ⟨SECURE_COMM_ERR_SESSION, s, false⟩
    else if de.ctx_ok = false then ⟨SECURE_COMM_ERR_SESSION, withPeer s kp, false⟩
    else if de.init_ok = false then ⟨SECURE_COMM_ERR_SESSION, withPeer s kp, false⟩
    else if de.setpeer_ok = false then
      ⟨SECURE_COMM_ERR_SESSION, withPeer s kp, false⟩
    else if de.sizeq_ok = false then ⟨SECURE_COMM_ERR_SESSION, withPeer s kp, false⟩
    else if de.malloc_secret_ok = false then
      ⟨SECURE_COMM_ERR_MEMORY, withPeer s kp, false⟩
    else if de.derive_ok = false then ⟨SECURE_COMM_ERR_SESSION, withPeer s kp, true⟩
    else if de.malloc_key_ok = false then
      ⟨SECURE_COMM_ERR_MEMORY, withPeer s kp, true⟩
    else ⟨SECURE_COMM_SUCCESS,
      { withPeer s kp with
          session_key := some (sha256model (rawSecretBytes kp)),
          session_key_len := 32 }, true⟩

/-- The all-successful derivation environment. -/
def deriveOkEnv : DeriveEnv :=
  ⟨true, true, true, true, true, true, true, true⟩

/-- Environment of initialize_session: whether malloc of the session
structure and strdup of the username succeed. -/
structure InitEnv where
  malloc_session_ok : Bool
  strdup_ok : Bool
deriving DecidableEq, Repr

/-- Allocation and key-material events performed by initialize_session, in
order: malloc/free of the session structure, strdup/free of the username
copy, the call to generate_dh_keypair, the call to derive_shared_secret,
and EVP_PKEY_free of the generated key pair. -/
inductive InitEvent where
  | allocSession
  | freeSession
  | allocUsername
  | freeUsername
  | dhKeygen
  | deriveSecret
  | freeKeypair
deriving DecidableEq, Repr

/-- Model of initialize_session (src/src/session.c lines 222-277).
Mirrors the control flow of the C function: malloc and zero the session;
authenticate the user, on failure free the session and return the
authentication error with the caller session out-parameter untouched
(none); strdup the username; generate the DH key pair; derive the shared
secret; on intermediate failures free everything allocated so far and
return the failing step error; on success hand the completed session to
the caller.  The third component is the ordered trace of allocation and
key-material events, witnessing which operations were performed. -/
def initialize_session (ie : InitEnv) (kg : KeygenEnv) (de : DeriveEnv)
    (username password : String) :
    SecureCommError × Option UserSession × List InitEvent :=
  if ie.malloc_session_ok = false then (SECURE_COMM_ERR_MEMORY, none, [])
  else
    let auth := authenticate_user username password
    if auth ≠ SECURE_COMM_SUCCESS then
      (auth, none, [InitEvent.allocSession, InitEvent.freeSession])
    else if ie.strdup_ok = false then
      (SECURE_COMM_ERR_MEMORY, none,
        [InitEvent.allocSession, InitEvent.freeSession])
    else
      match generate_dh_keypair kg with
      | (e, none) =>
        (e, none,
          [InitEvent.allocSession, InitEvent.allocUsername,
            InitEvent.dhKeygen, InitEvent.freeUsername,
            InitEvent.freeSession])
      | (_, some kp) =>
        let s0 : UserSession :=
          { username := some username, session_key := none,
            session_key_len := 0, dh_keypair := some kp,
            peer_dh_public := none }
        let dr := derive_shared_secret de s0
        if dr.ret ≠ SECURE_COMM_SUCCESS then
          (dr.ret, none,
            [InitEvent.allocSession, InitEvent.allocUsername,
              InitEvent.dhKeygen, InitEvent.deriveSecret,
              InitEvent.freeKeypair, InitEvent.freeUsername,
              InitEvent.freeSession])
        else
          (SECURE_COMM_SUCCESS, some dr.session,
            [InitEvent.allocSession, InitEvent.allocUsername,
              InitEvent.dhKeygen, InitEvent.deriveSecret])

/-- Teardown events of terminate_session, in order.  The freeKey event
records the bytes the session-key buffer holds at the moment free is
called on it. -/
inductive TermEvent where
  | freeKey (contentsAtFree : List Nat)
  | freeKeypair
  | freePeer
  | freeUsername
  | freeSession
deriving DecidableEq, Repr

/-- Effect of OPENSSL_cleanse(buf, len) on a buffer holding the bytes k:
the first len bytes become zero, the rest are unchanged. -/
def cleanseBytes (len : Nat) (k : List Nat) : List Nat :=
  List.replicate (min len k.length) 0 ++ k.drop len

/-- Model of terminate_session (src/src/session.c lines 284-315).  A NULL
session returns immediately with no action and no error.  Otherwise the
session key, if present, is overwritten by OPENSSL_cleanse over
session_key_len bytes and then freed; the key pair, the peer public key
and the username are freed when present; finally the session structure
itself is freed.  The result is the ordered trace of teardown events. -/
def terminate_session : Option UserSession → List TermEvent
  | none => []
  | some s =>
    (match s.session_key with
      | some k => [TermEvent.freeKey (cleanseBytes s.session_key_len k)]
      | none => []) ++
    (match s.dh_keypair with
      | some _ => [TermEvent.freeKeypair]
      | none => []) ++
    (match s.peer_dh_public with
      | some _ => [TermEvent.freePeer]
      | none => []) ++
    (match s.username with
      | some _ => [TermEvent.freeUsername]
      | none => []) ++
    [TermEvent.freeSession]

/-- Concrete session used as a witness input: local key pair present, no
session key yet. -/
def sampleSession : UserSession :=
  { username := some ("u"), session_key := none, session_key_len := 0,
    dh_keypair := some ⟨1, 5⟩, peer_dh_public := none }

/-- Concrete session with local key pair (2, 4) and stored peer public
key (1, 1). -/
def sessionPeerA : UserSession :=
  { username := some ("a"), session_key := none, session_key_len := 0,
    dh_keypair := some ⟨2, 4⟩, peer_dh_public := some ⟨1, 1⟩ }

/-- Concrete session with the same local key pair (2, 4) as sessionPeerA
but a different stored peer public key (3, 3). -/
def sessionPeerB : UserSession :=
  { username := some ("b"), session_key := none, session_key_len := 0,
    dh_keypair := some ⟨2, 4⟩, peer_dh_public := some ⟨3, 3⟩ }

/-- Concrete session holding a two-byte session key, used as a witness
input for teardown. -/
def sampleTermSession : UserSession :=
  { username := some ("u"), session_key := some [9, 9], session_key_len := 2,
    dh_keypair := none, peer_dh_public := none }

theorem natToBytes_length (n v : Nat) : (natToBytes n v).length = n := by
  induction n generalizing v with
  | zero => rfl
  | succ n ih => simp [natToBytes, ih]

theorem natToBytes_inj (n : Nat) : ∀ v w, v < 256 ^ n → w < 256 ^ n →
    natToBytes n v = natToBytes n w → v = w := by
  induction n with
  | zero =>
    intro v w hv hw _
    simp only [pow_zero, Nat.lt_one_iff] at hv hw
    omega
  | succ n ih =>
    intro v w hv hw h
    simp only [natToBytes, List.cons.injEq] at h
    obtain ⟨h1, h2⟩ := h
    have hv2 : v / 256 < 256 ^ n := by
      apply Nat.div_lt_of_lt_mul
      rw [pow_succ] at hv
      omega
    have hw2 : w / 256 < 256 ^ n := by
      apply Nat.div_lt_of_lt_mul
      rw [pow_succ] at hw
      omega
    have h3 := ih (v / 256) (w / 256) hv2 hw2 h2
    have hv4 := Nat.div_add_mod v 256
    have hw4 := Nat.div_add_mod w 256
    omega

theorem keystream_length (key iv : List Nat) (n : Nat) :
    (keystream key iv n).length = n := by
  simp [keystream]

theorem keystream_mem_lt (key iv : List Nat) (n : Nat) :
    ∀ b ∈ keystream key iv n, b < 256 := by
  intro b hb
  simp only [keystream, List.mem_map] at hb
  obtain ⟨i, _, rfl⟩ := hb
  exact Nat.mod_lt _ (by norm_num)

theorem zipXor_cancel : ∀ (p k : List Nat),
    zipXor (zipXor p k) k = p.take k.length := by
  intro p
  induction p with
  | nil => intro k; simp [zipXor]
  | cons x xs ih =>
    intro k
    cases k with
    | nil => simp [zipXor]
    | cons y ys =>
      simp only [zipXor, List.zipWith_cons_cons, List.take]
      rw [List.cons.injEq]
      exact ⟨Nat.xor_cancel_right y x, ih ys⟩

theorem gcmCtr_length (key iv d : List Nat) :
    (gcmCtr key iv d).length = d.length := by
  simp [gcmCtr, zipXor, keystream]

theorem gcmCtr_gcmCtr (key iv p : List Nat) :
    gcmCtr key iv (gcmCtr key iv p) = p := by
  have hlen : (gcmCtr key iv p).length = p.length := gcmCtr_length key iv p
  show zipXor (gcmCtr key iv p)
    (keystream key iv (gcmCtr key iv p).length) = p
  rw [hlen]
  show zipXor (zipXor p (keystream key iv p.length))
    (keystream key iv p.length) = p
  rw [zipXor_cancel, keystream_length, List.take_length]

theorem xor_lt_256 {a b : Nat} (ha : a < 256) (hb : b < 256) :
    a ^^^ b < 256 := by
  have e : a ^^^ b = Nat.bitwise bne a b := rfl
  have h : Nat.bitwise bne a b < 2 ^ 8 :=
    Nat.bitwise_lt (by norm_num; omega) (by norm_num; omega)
  rw [e]
  norm_num at h
  exact h

theorem xor_ne_self {a m : Nat} (hm : m ≠ 0) : a ^^^ m ≠ a := by
  intro h
  have h0 : a ^^^ m = a ^^^ 0 := by simpa using h
  exact hm (Nat.xor_right_inj.mp h0)

theorem zipXor_mem_lt : ∀ (p k : List Nat),
    (∀ x ∈ p, x < 256) → (∀ y ∈ k, y < 256) →
    ∀ z ∈ zipXor p k, z < 256 := by
  intro p
  induction p with
  | nil =>
    intro k _ _ z hz
    simp [zipXor] at hz
  | cons x xs ih =>
    intro k hp hk z hz
    cases k with
    | nil => simp [zipXor] at hz
    | cons y ys =>
      simp only [zipXor, List.zipWith_cons_cons, List.mem_cons] at hz
      rcases hz with rfl | hz
      · exact xor_lt_256 (hp x (by simp)) (hk y (by simp))
      · exact ih ys (fun a ha => hp a (by simp [ha]))
          (fun a ha => hk a (by simp [ha])) z hz

theorem getD_set_self : ∀ (l : List Nat) (i x : Nat), i < l.length →
    (l.set i x).getD i 0 = x := by
  intro l
  induction l with
  | nil => intro i x h; simp at h
  | cons c t ih =>
    intro i x h
    cases i with
    | zero => rfl
    | succ i =>
      show (t.set i x).getD i 0 = x
      exact ih i x (by simpa using h)

theorem getD_mem : ∀ (l : List Nat) (i : Nat), i < l.length →
    l.getD i 0 ∈ l := by
  intro l
  induction l with
  | nil => intro i h; simp at h
  | cons c t ih =>
    intro i h
    cases i with
    | zero => simp
    | succ i =>
      simp only [List.getD_cons_succ]
      exact List.mem_cons_of_mem _ (ih i (by simpa using h))

theorem set_ne_of_getD_ne {l : List Nat} {i x : Nat} (hi : i < l.length)
    (hx : x ≠ l.getD i 0) : l.set i x ≠ l := by
  intro h
  apply hx
  have h2 := getD_set_self l i x hi
  rw [h] at h2
  exact h2.symm

theorem zmod257_natCast_inj {x y : Nat} (hx : x < 257) (hy : y < 257)
    (h : (x : ZMod 257) = (y : ZMod 257)) : x = y := by
  have h2 := congrArg ZMod.val h
  rwa [ZMod.val_cast_of_lt hx, ZMod.val_cast_of_lt hy] at h2

theorem hNat_lt (key iv : List Nat) : hNat key iv < 257 := by
  unfold hNat
  have := Nat.mod_lt (bytesToNat key + 7 * bytesToNat iv)
    (y := 256) (by norm_num)
  omega

theorem hNat_cast_ne_zero (key iv : List Nat) :
    ((hNat key iv : Nat) : ZMod 257) ≠ 0 := by
  have h1 : hNat key iv < 257 := hNat_lt key iv
  have h2 : hNat key iv ≠ 0 := by unfold hNat; omega
  intro h
  apply h2
  have h3 := congrArg ZMod.val h
  rwa [ZMod.val_cast_of_lt h1, ZMod.val_zero] at h3

theorem polyA_set_ne {H : ZMod 257} (hH : H ≠ 0) :
    ∀ (l : List Nat) (i x : Nat), i < l.length → x < 257 →
      l.getD i 0 < 257 → x ≠ l.getD i 0 →
      polyA H (l.set i x) ≠ polyA H l := by
  intro l
  induction l with
  | nil => intro i x hi _ _ _; simp at hi
  | cons c t ih =>
    intro i x hi hx hc hne
    cases i with
    | zero =>
      show polyA H (x :: t) ≠ polyA H (c :: t)
      simp only [polyA]
      intro heq
      have h1 : (x : ZMod 257) * H ^ t.length
          = (c : ZMod 257) * H ^ t.length := add_right_cancel heq
      have h2 : (x : ZMod 257) = (c : ZMod 257) :=
        mul_right_cancel₀ (pow_ne_zero _ hH) h1
      exact hne (zmod257_natCast_inj hx (by simpa using hc) h2)
    | succ i =>
      show polyA H (c :: t.set i x) ≠ polyA H (c :: t)
      simp only [polyA, List.length_set]
      intro heq
      have h1 : polyA H (t.set i x) = polyA H t := add_left_cancel heq
      exact ih i x (by simpa using hi) hx (by simpa using hc)
        (by simpa using hne) h1

theorem tagVal_set_ne {key iv ct : List Nat} {i x : Nat}
    (hi : i < ct.length) (hx : x < 257) (hc : ct.getD i 0 < 257)
    (hne : x ≠ ct.getD i 0) :
    tagVal key iv (ct.set i x) ≠ tagVal key iv ct := by
  unfold tagVal
  rw [List.length_set]
  intro h
  exact polyA_set_ne (hNat_cast_ne_zero key iv) ct i x hi hx hc hne
    (add_right_cancel h)

theorem gcmTag_ne_of_tagVal_ne {key iv a b : List Nat}
    (h : tagVal key iv a ≠ tagVal key iv b) :
    gcmTag key iv a ≠ gcmTag key iv b := by
  unfold gcmTag
  intro he
  apply h
  apply ZMod.val_injective 257
  exact natToBytes_inj 16 _ _
    (lt_of_lt_of_le (ZMod.val_lt _) (by norm_num))
    (lt_of_lt_of_le (ZMod.val_lt _) (by norm_num)) he

theorem gcmTag_length (key iv ct : List Nat) :
    (gcmTag key iv ct).length = 16 :=
  natToBytes_length 16 _

theorem sha256model_length (d : List Nat) : (sha256model d).length = 32 :=
  natToBytes_length 32 _

theorem decrypt_data_ok (ciphertext key iv tag : List Nat) :
    decrypt_data decOkEnv ciphertext key iv tag
      = if gcmTag key iv ciphertext = tag
        then (SECURE_COMM_SUCCESS, some (gcmCtr key iv ciphertext))
        else (SECURE_COMM_ERR_DECRYPT, none) := rfl

theorem gcmCtr_mem_lt (key iv pt : List Nat) (hpt : ∀ x ∈ pt, x < 256) :
    ∀ z ∈ gcmCtr key iv pt, z < 256 := by
  intro z hz
  exact zipXor_mem_lt pt (keystream key iv pt.length) hpt
    (keystream_mem_lt key iv pt.length) z hz

/-- C1: for every plaintext of length 0 up to the 4096-byte buffer limit
and every 32-byte session key, encrypt_data succeeds and produces the
frame parts (nonce, ciphertext, tag), and decrypt_data on exactly those
parts under the same key succeeds and returns exactly the original
plaintext. -/
theorem C1_encrypt_decrypt_roundtrip (key pt iv : List Nat)
    (hkey : key.length = 32) (hlen : pt.length ≤ 4096)
    (hbytes : ∀ b ∈ pt, b < 256) :
    encrypt_data (encOkEnv iv) pt key
      = (SECURE_COMM_SUCCESS,
          some (iv, gcmCtr key iv pt, gcmTag key iv (gcmCtr key iv pt)))
    ∧ decrypt_data decOkEnv (gcmCtr key iv pt) key iv
        (gcmTag key iv (gcmCtr key iv pt))
      = (SECURE_COMM_SUCCESS, some pt) := by
  constructor
  · rfl
  · rw [decrypt_data_ok, if_pos rfl, gcmCtr_gcmCtr]

/-- C1 witness: concrete roundtrip instance with a 32-byte key, a 12-byte
IV and the two-byte plaintext hi. -/
theorem C1_encrypt_decrypt_roundtrip_witness :
    (List.replicate 32 0).length = 32
    ∧ ([104, 105] : List Nat).length ≤ 4096
    ∧ (∀ b ∈ ([104, 105] : List Nat), b < 256)
    ∧ decrypt_data decOkEnv
        (gcmCtr (List.replicate 32 0) (List.replicate 12 1) [104, 105])
        (List.replicate 32 0) (List.replicate 12 1)
        (gcmTag (List.replicate 32 0) (List.replicate 12 1)
          (gcmCtr (List.replicate 32 0) (List.replicate 12 1) [104, 105]))
      = (SECURE_COMM_SUCCESS, some [104, 105]) :=
  ⟨by decide, by decide, by decide,
    (C1_encrypt_decrypt_roundtrip (List.replicate 32 0) [104, 105]
      (List.replicate 12 1) (by decide) (by decide) (by decide)).2⟩

/-- C2: for a frame produced by encrypt_data, flipping any single bit of
its tag (byte i, bit b) or of its ciphertext makes decrypt_data under the
same key return SECURE_COMM_ERR_DECRYPT with no plaintext released to the
caller, never success with a mismatched plaintext. -/
theorem C2_tamper_detection (key iv pt : List Nat)
    (hbytes : ∀ x ∈ pt, x < 256) (i b : Nat) (hb : b < 8) :
    (i < 16 →
      decrypt_data decOkEnv (gcmCtr key iv pt) key iv
        ((gcmTag key iv (gcmCtr key iv pt)).set i
          (((gcmTag key iv (gcmCtr key iv pt)).getD i 0) ^^^ 2 ^ b))
        = (SECURE_COMM_ERR_DECRYPT, none))
    ∧ (i < pt.length →
      decrypt_data decOkEnv
        ((gcmCtr key iv pt).set i (((gcmCtr key iv pt).getD i 0) ^^^ 2 ^ b))
        key iv (gcmTag key iv (gcmCtr key iv pt))
        = (SECURE_COMM_ERR_DECRYPT, none)) := by
  have hpow : (2 : Nat) ^ b ≠ 0 := (Nat.two_pow_pos b).ne'
  constructor
  · intro hi
    have h16 : i < (gcmTag key iv (gcmCtr key iv pt)).length := by
      rw [gcmTag_length]; exact hi
    have hne1 : ((gcmTag key iv (gcmCtr key iv pt)).getD i 0) ^^^ 2 ^ b
        ≠ (gcmTag key iv (gcmCtr key iv pt)).getD i 0 := xor_ne_self hpow
    have hne2 := set_ne_of_getD_ne h16 hne1
    rw [decrypt_data_ok, if_neg (fun h => hne2 h.symm)]
  · intro hi
    have hctlen : i < (gcmCtr key iv pt).length := by
      rw [gcmCtr_length]; exact hi
    have hcbyte : (gcmCtr key iv pt).getD i 0 < 256 :=
      gcmCtr_mem_lt key iv pt hbytes _ (getD_mem _ i hctlen)
    have hblt : (2 : Nat) ^ b < 256 := by
      have h7 : (2 : Nat) ^ b ≤ 2 ^ 7 :=
        Nat.pow_le_pow_right (by norm_num) (by omega)
      calc (2 : Nat) ^ b ≤ 2 ^ 7 := h7
        _ < 256 := by norm_num
    have hxlt : ((gcmCtr key iv pt).getD i 0) ^^^ 2 ^ b < 256 :=
      xor_lt_256 hcbyte hblt
    have hne1 : ((gcmCtr key iv pt).getD i 0) ^^^ 2 ^ b
        ≠ (gcmCtr key iv pt).getD i 0 := xor_ne_self hpow
    have htag : tagVal key iv
        ((gcmCtr key iv pt).set i (((gcmCtr key iv pt).getD i 0) ^^^ 2 ^ b))
        ≠ tagVal key iv (gcmCtr key iv pt) :=
      tagVal_set_ne hctlen (lt_of_lt_of_le hxlt (by norm_num))
        (lt_of_lt_of_le hcbyte (by norm_num)) hne1
    rw [decrypt_data_ok, if_neg (gcmTag_ne_of_tagVal_ne htag)]

/-- C2 witness: flipping the lowest bit of the single ciphertext byte of
a concrete one-byte frame makes decryption fail with
SECURE_COMM_ERR_DECRYPT and no plaintext. -/
theorem C2_tamper_detection_witness :
    (∀ x ∈ ([7] : List Nat), x < 256) ∧ (0 : Nat) < 8
    ∧ (0 : Nat) < ([7] : List Nat).length
    ∧ decrypt_data decOkEnv
        ((gcmCtr [] [] [7]).set 0 (((gcmCtr [] [] [7]).getD 0 0) ^^^ 2 ^ 0))
        [] [] (gcmTag [] [] (gcmCtr [] [] [7]))
      = (SECURE_COMM_ERR_DECRYPT, none) :=
  ⟨by decide, by decide, by decide,
    (C2_tamper_detection [] [] [7] (by decide) 0 0 (by decide)).2 (by decide)⟩

/-- C3: any received buffer shorter than 28 = 12 + 16 bytes is rejected
by the receiver frame handler as a too-short frame, with the same result
for every decryption function whatsoever, i.e. without invoking the
cipher; in particular the handler instantiated with the real decrypt_data
logs the too-short error. -/
theorem C3_short_frame_rejected (key buffer : List Nat)
    (h : buffer.length < 28) :
    (∀ dec, receiver_process_frameWith dec key buffer = RecvAction.logShort)
    ∧ ∀ e : DecEnv,
        receiver_process_frame e key buffer = RecvAction.logShort := by
  constructor
  · intro dec
    unfold receiver_process_frameWith
    rw [if_pos (by omega)]
  · intro e
    unfold receiver_process_frame receiver_process_frameWith
    rw [if_pos (by omega)]

/-- C3 witness: a concrete 3-byte buffer is rejected as too short by the
receiver frame handler with the real decrypt_data. -/
theorem C3_short_frame_rejected_witness :
    ([0, 1, 2] : List Nat).length < 28
    ∧ receiver_process_frame decOkEnv [] [0, 1, 2] = RecvAction.logShort :=
  ⟨by decide, (C3_short_frame_rejected [] [0, 1, 2] (by decide)).2 decOkEnv⟩

theorem derive_shared_secret_success {de : DeriveEnv} {s : UserSession}
    {kp : DHKeyPair} (hkp : s.dh_keypair = some kp)
    (hs : (derive_shared_secret de s).ret = SECURE_COMM_SUCCESS) :
    derive_shared_secret de s
      = ⟨SECURE_COMM_SUCCESS,
          { withPeer s kp with
              session_key := some (sha256model (rawSecretBytes kp)),
              session_key_len := 32 }, true⟩ := by
  simp only [derive_shared_secret, hkp] at hs ⊢
  by_cases h1 : de.dup_ok = false
  · rw [if_pos h1] at hs; exact absurd hs (by simp)
  rw [if_neg h1] at hs ⊢
  by_cases h2 : de.ctx_ok = false
  · rw [if_pos h2] at hs; exact absurd hs (by simp)
  rw [if_neg h2] at hs ⊢
  by_cases h3 : de.init_ok = false
  · rw [if_pos h3] at hs; exact absurd hs (by simp)
  rw [if_neg h3] at hs ⊢
  by_cases h4 : de.setpeer_ok = false
  · rw [if_pos h4] at hs; exact absurd hs (by simp)
  rw [if_neg h4] at hs ⊢
  by_cases h5 : de.sizeq_ok = false
  · rw [if_pos h5] at hs; exact absurd hs (by simp)
  rw [if_neg h5] at hs ⊢
  by_cases h6 : de.malloc_secret_ok = false
  · rw [if_pos h6] at hs; exact absurd hs (by simp)
  rw [if_neg h6] at hs ⊢
  by_cases h7 : de.derive_ok = false
  · rw [if_pos h7] at hs; exact absurd hs (by simp)
  rw [if_neg h7] at hs ⊢
  by_cases h8 : de.malloc_key_ok = false
  · rw [if_pos h8] at hs; exact absurd hs (by simp)
  rw [if_neg h8]

theorem derive_ret_congr (de : DeriveEnv) {s1 s2 : UserSession}
    {k1 k2 : DHKeyPair} (h1 : s1.dh_keypair = some k1)
    (h2 : s2.dh_keypair = some k2) :
    (derive_shared_secret de s1).ret = (derive_shared_secret de s2).ret := by
  simp only [derive_shared_secret, h1, h2]
  split_ifs <;> rfl

/-- C4: if authentication fails, initialize_session frees the freshly
allocated session structure, returns the authentication error
SECURE_COMM_ERR_SESSION, leaves the caller session out-parameter
unchanged (none), and its event trace records no DH key-pair generation
and no secret derivation, whatever the keygen and derivation environments
would have done. -/
theorem C4_auth_gate (ie : InitEnv) (kg : KeygenEnv) (de : DeriveEnv)
    (u p : String) (hm : ie.malloc_session_ok = true)
    (ha : authenticate_user u p ≠ SECURE_COMM_SUCCESS) :
    initialize_session ie kg de u p
      = (SECURE_COMM_ERR_SESSION, none,
          [InitEvent.allocSession, InitEvent.freeSession])
    ∧ InitEvent.dhKeygen ∉ (initialize_session ie kg de u p).2.2
    ∧ InitEvent.deriveSecret ∉ (initialize_session ie kg de u p).2.2 := by
  have hauth : authenticate_user u p = SECURE_COMM_ERR_SESSION := by
    by_cases hc : u = ("user") ∧ p = ("pass")
    · exfalso
      apply ha
      unfold authenticate_user
      rw [if_pos hc]
    · unfold authenticate_user
      rw [if_neg hc]
  have hmain : initialize_session ie kg de u p
      = (SECURE_COMM_ERR_SESSION, none,
          [InitEvent.allocSession, InitEvent.freeSession]) := by
    simp [initialize_session, hm, hauth]
  refine ⟨hmain, ?_, ?_⟩ <;> rw [hmain] <;> decide

/-- C4 witness: the spec scenario of the user name user with a wrong
password, with every environment step able to succeed. -/
theorem C4_auth_gate_witness :
    (⟨true, true⟩ : InitEnv).malloc_session_ok = true
    ∧ authenticate_user ("user") ("wrongpass") ≠ SECURE_COMM_SUCCESS
    ∧ initialize_session ⟨true, true⟩ ⟨true, ⟨1, 2⟩⟩ deriveOkEnv
        ("user") ("wrongpass")
      = (SECURE_COMM_ERR_SESSION, none,
          [InitEvent.allocSession, InitEvent.freeSession]) :=
  ⟨rfl, by decide,
    (C4_auth_gate ⟨true, true⟩ ⟨true, ⟨1, 2⟩⟩ deriveOkEnv
      ("user") ("wrongpass") rfl (by decide)).1⟩

/-- C5: whenever derive_shared_secret succeeds, the stored session key is
exactly the 32-byte SHA-256 hash of the raw Diffie-Hellman shared secret,
session_key_len is 32, and the raw shared-secret buffer was freed before
returning, so only the hash is kept in the session. -/
theorem C5_session_key_is_hash (de : DeriveEnv) (s : UserSession)
    (kp : DHKeyPair) (hkp : s.dh_keypair = some kp)
    (hs : (derive_shared_secret de s).ret = SECURE_COMM_SUCCESS) :
    (derive_shared_secret de s).session.session_key
      = some (sha256model (rawSecretBytes kp))
    ∧ (derive_shared_secret de s).session.session_key_len = 32
    ∧ (sha256model (rawSecretBytes kp)).length = 32
    ∧ (derive_shared_secret de s).rawSecretFreed = true := by
  rw [derive_shared_secret_success hkp hs]
  exact ⟨rfl, rfl, sha256model_length _, rfl⟩

/-- C5 witness: concrete successful derivation on sampleSession. -/
theorem C5_session_key_is_hash_witness :
    sampleSession.dh_keypair = some ⟨1, 5⟩
    ∧ (derive_shared_secret deriveOkEnv sampleSession).ret
      = SECURE_COMM_SUCCESS
    ∧ (derive_shared_secret deriveOkEnv sampleSession).session.session_key
      = some (sha256model (rawSecretBytes ⟨1, 5⟩)) :=
  ⟨rfl, by decide,
    (C5_session_key_is_hash deriveOkEnv sampleSession ⟨1, 5⟩ rfl
      (by decide)).1⟩

/-- C6 counterexample: sessionPeerA and sessionPeerB hold the same local
key pair but different stored peer public keys, derivation succeeds on
both, and the derived session keys are identical, refuting the claim that
different peer public keys yield different SessionKeys (the code replaces
the peer public key by a duplicate of the local key pair). -/
theorem C6_counterexample :
    sessionPeerA.dh_keypair = sessionPeerB.dh_keypair
    ∧ sessionPeerA.peer_dh_public ≠ sessionPeerB.peer_dh_public
    ∧ (derive_shared_secret deriveOkEnv sessionPeerA).ret
      = SECURE_COMM_SUCCESS
    ∧ (derive_shared_secret deriveOkEnv sessionPeerB).ret
      = SECURE_COMM_SUCCESS
    ∧ (derive_shared_secret deriveOkEnv sessionPeerA).session.session_key
      = (derive_shared_secret deriveOkEnv sessionPeerB).session.session_key
      := by
  exact ⟨rfl, by decide, by decide, by decide, rfl⟩

/-- C6 amended: session key derivation is a deterministic function of the
local key pair alone: any two runs of derive_shared_secret on sessions
with the same local key pair, one of which succeeds, both succeed and
produce the identical SessionKey, regardless of the stored peer public
keys (which the code overwrites with a duplicate of the local key
pair). -/
theorem C6_derivation_deterministic (de : DeriveEnv) (s1 s2 : UserSession)
    (h : s1.dh_keypair = s2.dh_keypair)
    (hs : (derive_shared_secret de s1).ret = SECURE_COMM_SUCCESS) :
    (derive_shared_secret de s2).ret = SECURE_COMM_SUCCESS
    ∧ (derive_shared_secret de s1).session.session_key
      = (derive_shared_secret de s2).session.session_key := by
  cases hkp : s1.dh_keypair with
  | none =>
    exfalso
    simp only [derive_shared_secret, hkp] at hs
    exact absurd hs (by simp)
  | some kp =>
    have h2 : s2.dh_keypair = some kp := by rw [← h]; exact hkp
    have hr := derive_ret_congr de hkp h2
    have hs2 : (derive_shared_secret de s2).ret = SECURE_COMM_SUCCESS := by
      rw [← hr]; exact hs
    refine ⟨hs2, ?_⟩
    rw [derive_shared_secret_success hkp hs,
      derive_shared_secret_success h2 hs2]

/-- C6 witness: the amended determinism applied to the concrete sessions
sessionPeerA and sessionPeerB sharing one local key pair. -/
theorem C6_derivation_deterministic_witness :
    sessionPeerA.dh_keypair = sessionPeerB.dh_keypair
    ∧ (derive_shared_secret deriveOkEnv sessionPeerA).ret
      = SECURE_COMM_SUCCESS
    ∧ (derive_shared_secret deriveOkEnv sessionPeerA).session.session_key
      = (derive_shared_secret deriveOkEnv sessionPeerB).session.session_key
      :=
  ⟨rfl, by decide,
    (C6_derivation_deterministic deriveOkEnv sessionPeerA sessionPeerB rfl
      (by decide)).2⟩

/-- C7: a received frame that is too short or fails authentication is
logged and discarded: the receive loop emits exactly the corresponding
log action for it, delivers no message for it, and continues with the
remaining events on the same connection (no disconnect), in contrast to
the closing events which end the loop. -/
theorem C7_corrupt_frame_keeps_connection (e : DecEnv) (key b : List Nat)
    (rest : List RecvEvent)
    (h : receiver_process_frame e key b = RecvAction.logShort
      ∨ receiver_process_frame e key b = RecvAction.logDecryptFail) :
    receiver_loop e key (RecvEvent.frame b :: rest)
      = receiver_process_frame e key b :: receiver_loop e key rest
    ∧ deliveredMsgs (receiver_loop e key (RecvEvent.frame b :: rest))
      = deliveredMsgs (receiver_loop e key rest) := by
  constructor
  · rfl
  · show deliveredMsgs
        (receiver_process_frame e key b :: receiver_loop e key rest) = _
    rcases h with h | h <;> rw [h] <;> rfl

/-- C7 witness: an empty (too-short) frame followed by no further events:
the loop logs it and continues. -/
theorem C7_corrupt_frame_keeps_connection_witness :
    (receiver_process_frame decOkEnv [] [] = RecvAction.logShort
      ∨ receiver_process_frame decOkEnv [] [] = RecvAction.logDecryptFail)
    ∧ receiver_loop decOkEnv [] [RecvEvent.frame []]
      = receiver_process_frame decOkEnv [] []
        :: receiver_loop decOkEnv [] [] :=
  ⟨Or.inl (by decide),
    (C7_corrupt_frame_keeps_connection decOkEnv [] [] []
      (Or.inl (by decide))).1⟩

/-- C8: terminate_session on a session holding a key overwrites the whole
key buffer with zeros (OPENSSL_cleanse over session_key_len bytes) before
freeing it, so the buffer holds only zero bytes at deallocation time, and
terminate_session on a NULL session performs no action and signals no
error. -/
theorem C8_teardown_zeroizes (s : UserSession) (k : List Nat)
    (h1 : s.session_key = some k) (h2 : s.session_key_len = k.length) :
    (terminate_session (some s)).head?
      = some (TermEvent.freeKey (List.replicate k.length 0))
    ∧ terminate_session none = [] := by
  constructor
  · have hc : cleanseBytes k.length k = List.replicate k.length 0 := by
      unfold cleanseBytes
      rw [min_self, List.drop_length, List.append_nil]
    simp [terminate_session, h1, h2, hc]
  · rfl

/-- C8 witness: concrete teardown of sampleTermSession, whose two-byte
key buffer is freed holding two zero bytes. -/
theorem C8_teardown_zeroizes_witness :
    sampleTermSession.session_key = some [9, 9]
    ∧ sampleTermSession.session_key_len = ([9, 9] : List Nat).length
    ∧ (terminate_session (some sampleTermSession)).head?
      = some (TermEvent.freeKey
          (List.replicate ([9, 9] : List Nat).length 0)) :=
  ⟨rfl, rfl, (C8_teardown_zeroizes sampleTermSession [9, 9] rfl rfl).1⟩

/-- C9: decrypt_data collapses every failure cause (invalid arguments,
context allocation failure, init, update or set-tag failure, tag
mismatch from tampering or a wrong key) into the single error value
SECURE_COMM_ERR_DECRYPT with no plaintext: every outcome is either full
success or exactly that one error result, so the caller cannot tell why a
frame was rejected. -/
theorem C9_single_decrypt_error (e : DecEnv) (ct key iv tg : List Nat) :
    decrypt_data e ct key iv tg
      = (SECURE_COMM_SUCCESS, some (gcmCtr key iv ct))
    ∨ decrypt_data e ct key iv tg = (SECURE_COMM_ERR_DECRYPT, none) := by
  unfold decrypt_data
  split_ifs <;> simp

/-- C10: authenticate_user succeeds exactly on the hardcoded credential
pair user and pass; every other username or password pair yields
SECURE_COMM_ERR_SESSION. -/
theorem C10_hardcoded_credentials :
    authenticate_user ("user") ("pass") = SECURE_COMM_SUCCESS
    ∧ ∀ u p : String, ¬(u = ("user") ∧ p = ("pass")) →
      authenticate_user u p = SECURE_COMM_ERR_SESSION := by
  constructor
  · rfl
  · intro u p h
    unfold authenticate_user
    rw [if_neg h]

/-- C10 witness: a non-matching credential pair is rejected with
SECURE_COMM_ERR_SESSION. -/
theorem C10_hardcoded_credentials_witness :
    ¬(("alice") = ("user") ∧ ("pw") = ("pass"))
    ∧ authenticate_user ("alice") ("pw") = SECURE_COMM_ERR_SESSION :=
  ⟨by decide, C10_hardcoded_credentials.2 ("alice") ("pw") (by decide)⟩
